import Mathlib

/-!
# SHARCSynth — shallow embedding and verification

A shallow embedding of the SHARCSynth repository (a dual-core SHARC audio
synthesizer: a MIDI decoder feeding a control-rate bridge, a 16-voice synth
bank on core 1, and a filter+delay chain on core 2), together with theorems
settling the specification claims about it.

Machine `float` samples and gains are embedded as `ℚ`; MIDI bytes, note
numbers and velocities as `Nat`.  Shared-memory arrays of the control-rate
bridge are embedded as `List`s, mutation as functional update.

Sources embedded:
* `src/unnamed/part_000`                              (namespace `Part000`)
* `src/Synth_core0/src/callback_midi_message.cpp`     (namespace `Core0`)
* `src/Synth_core1/src/callback_audio_processing.cpp` (namespace `Core1`)
* `src/Synth_core2/src/callback_audio_processing.cpp` (namespace `Core2`)
-/

/-- One slot of the `multicore_data->midi_note[]` array of the control-rate
bridge: current velocity and the previous velocity seen by the background
pass (fields `velocity` and `velocity_prev`). -/
structure MidiNote where
  velocity : Nat
  velocity_prev : Nat
deriving DecidableEq, Repr

/-- One synthesizer voice (struct `SIMPLE_SYNTH`); only the fields the
claims are about: the `playing` flag, the assigned MIDI `note`, the
amplitude scale, and the oscillator phase. -/
structure SynthVoice where
  playing : Bool
  note : Nat
  amplitude : ℚ
  phase : ℚ
deriving DecidableEq, Repr

/-- Modelled from the spec: `simple_synth.cpp` is not under `src/` (only its
callers are).  Spec §4.3: `start(note, amplitude)` resets oscillator phase,
sets `playing = true`, stores note and amplitude. -/
def synth_play_note (v : SynthVoice) (note : Nat) (amplitude : ℚ) : SynthVoice :=
  { v with playing := true, note := note, amplitude := amplitude, phase := 0 }

/-- Modelled from the spec: `simple_synth.cpp` is not under `src/`.
Spec §4.3: `stop()` sets `playing = false` (no release ramp in this model;
the other fields are untouched). -/
def synth_stop_note (v : SynthVoice) : SynthVoice :=
  { v with playing := false }

namespace Part000

/-- Decoder state of `src/unnamed/part_000`: the four `static uint8_t`
variables `midi_status`, `midi_channel`, `midi_note_num`, `midi_byte_num`
(lines 49–52), which persist across invocations. -/
structure DecoderState where
  midi_status : Nat
  midi_channel : Nat
  midi_note_num : Nat
  midi_byte_num : Nat
deriving DecidableEq, Repr

/-- The decoder's reset state: all four statics are zero-initialized. -/
def reset_state : DecoderState := ⟨0, 0, 0, 0⟩

/-- The part of the control-rate bridge (`multicore_data`) written by the
`part_000` decoder: `midi_note[128]` and `midi_cc_values[]` (the latter is
indexed by MIDI channel in this variant, so 16 slots are modelled). -/
structure Bridge where
  midi_note : List MidiNote
  midi_cc_values : List Nat
deriving DecidableEq, Repr

/-- The all-zero bridge: 128 note slots and 16 CC slots. -/
def init_bridge : Bridge :=
  ⟨List.replicate 128 ⟨0, 0⟩, List.replicate 16 0⟩

/-- Write `velocity := v` to note slot `n` of a `midi_note` array, leaving
that slot's `velocity_prev` (and every other slot) unchanged — the effect of
the C store `multicore_data->midi_note[n].velocity = v`. -/
def set_note_velocity (notes : List MidiNote) (n v : Nat) : List MidiNote :=
  notes.set n ⟨v, (notes.getD n ⟨0, 0⟩).velocity_prev⟩

/-- Processing of one received MIDI byte by `midi_rx_callback_arm` of
`src/unnamed/part_000` (lines 71–121): a status byte (high bit set) stores
channel/status and clears `midi_note_num`/`midi_byte_num`; a data byte is
dispatched on `midi_status` (0x80 note-off, 0x90 note-on, 0xB0 CC — the CC
write is filtered to controller 74 and indexed by `midi_channel`), then
`midi_byte_num` is incremented.  The C byte is `uint8_t`, so the model first
truncates to `val % 256`; the masks `& 0x80`, `& 0xF0`, `& 0x0F` are
rendered arithmetically (for a byte `x`: `x & 0x80 = 0x80 ↔ 128 ≤ x`,
`x & 0xF0 = x / 16 * 16`, `x & 0x0F = x % 16`). -/
def midi_rx_byte (st : DecoderState × Bridge) (val : Nat) : DecoderState × Bridge :=
  let x := val % 256
  let d := st.1
  let b := st.2
  if 128 ≤ x then
    (⟨x / 16 * 16, x % 16, 0, 0⟩, b)
  else
    let d' : DecoderState := { d with midi_byte_num := d.midi_byte_num + 1 }
    if d.midi_status = 0x80 then
      if d.midi_byte_num = 0 then
        (d', { b with midi_note := set_note_velocity b.midi_note x 0 })
      else (d', b)
    else if d.midi_status = 0x90 then
      if d.midi_byte_num = 0 then
        ({ d' with midi_note_num := x }, b)
      else if d.midi_byte_num = 1 then
        (d', { b with midi_note := set_note_velocity b.midi_note d.midi_note_num x })
      else (d', b)
    else if d.midi_status = 0xB0 then
      if d.midi_byte_num = 0 then
        ({ d' with midi_note_num := x }, b)
      else if d.midi_byte_num = 1 then
        if d.midi_note_num = 74 then
          (d', { b with midi_cc_values := b.midi_cc_values.set d.midi_channel x })
        else (d', b)
      else (d', b)
    else (d', b)

/-- Feeding a whole byte sequence to the `part_000` decoder. -/
def midi_rx_bytes (st : DecoderState × Bridge) (bytes : List Nat) : DecoderState × Bridge :=
  bytes.foldl midi_rx_byte st

end Part000

namespace Core0

/-- The part of the control-rate bridge written by the `Synth_core0` decoder
variant: `midi_note_velocities[128]` and `midi_cc_values[128]` (the latter is
indexed by controller number in this variant). -/
structure Bridge where
  midi_note_velocities : List Nat
  midi_cc_values : List Nat
deriving DecidableEq, Repr

/-- The all-zero `Core0` bridge. -/
def init_bridge : Bridge :=
  ⟨List.replicate 128 0, List.replicate 128 0⟩

/-- Decoder variables of `Synth_core0/src/callback_midi_message.cpp`
(lines 54–58): *local* variables of `midi_rx_callback_arm`, zero-initialized
on every invocation. -/
structure Locals where
  status : Nat
  channel : Nat
  note_num : Nat
  command_num : Nat
deriving DecidableEq, Repr

/-- Processing of one received MIDI byte by the loop body of
`midi_rx_callback_arm` in `Synth_core0/src/callback_midi_message.cpp`
(lines 69–107).  Unlike the `part_000` variant, a status byte here does not
clear `note_num`.  Bytes are `uint8_t`; masks are rendered arithmetically as
in `Part000.midi_rx_byte`. -/
def midi_rx_byte (st : Locals × Bridge) (val : Nat) : Locals × Bridge :=
  let x := val % 256
  let d := st.1
  let b := st.2
  if 128 ≤ x then
    (⟨x / 16 * 16, x % 16, d.note_num, 0⟩, b)
  else
    let d' : Locals := { d with command_num := d.command_num + 1 }
    if d.status = 0x80 then
      if d.command_num = 0 then
        (d', { b with midi_note_velocities := b.midi_note_velocities.set x 0 })
      else (d', b)
    else if d.status = 0x90 then
      if d.command_num = 0 then
        ({ d' with note_num := x }, b)
      else if d.command_num = 1 then
        (d', { b with midi_note_velocities := b.midi_note_velocities.set d.note_num x })
      else (d', b)
    else if d.status = 0xB0 then
      if d.command_num = 0 then
        ({ d' with note_num := x }, b)
      else if d.command_num = 1 then
        (d', { b with midi_cc_values := b.midi_cc_values.set d.note_num x })
      else (d', b)
    else (d', b)

/-- One invocation of `midi_rx_callback_arm` (`Synth_core0` variant,
lines 52–112): the decoder variables are fresh locals initialized to zero,
then every available byte is processed; only the bridge survives the
invocation. -/
def midi_rx_callback_arm (b : Bridge) (bytes : List Nat) : Bridge :=
  (bytes.foldl midi_rx_byte (⟨0, 0, 0, 0⟩, b)).2

end Core0


namespace Core1

/-- Stop the first voice (ascending index) that is playing the given note —
the note-off `do … while (!found && indx < 16)` loop of
`Synth_core1/src/callback_audio_processing.cpp` (lines 291–299): as soon as
a match is found, `found` is set and the loop exits, so only the first
match is stopped. -/
def stop_first_matching : List SynthVoice → Nat → List SynthVoice
  | [], _ => []
  | v :: rest, n =>
    if v.playing = true ∧ v.note = n then synth_stop_note v :: rest
    else v :: stop_first_matching rest n

/-- Start the first non-playing voice (ascending index) — the note-on
`do … while (!found && indx < 16)` loop of
`Synth_core1/src/callback_audio_processing.cpp` (lines 303–311).  If every
voice is playing the list is returned unchanged (the event is dropped). -/
def play_first_free : List SynthVoice → Nat → ℚ → List SynthVoice
  | [], _, _ => []
  | v :: rest, n, amp =>
    if v.playing = false then synth_play_note v n amp :: rest
    else v :: play_first_free rest n amp

/-- Voice-bank update for one observed velocity change of note `i` — the
branch on `velocity == 0` at lines 289–312: a zero velocity stops the first
matching voice, a nonzero velocity `vel` starts the first free voice with
amplitude `vel * (1.0/128.0)`. -/
def process_note_event (voices : List SynthVoice) (i vel : Nat) : List SynthVoice :=
  if vel = 0 then stop_first_matching voices i
  else play_first_free voices i ((vel : ℚ) * (1 / 128))

/-- State shared by the `Synth_core1` background pass: the note slots of the
control-rate bridge and the 16-voice bank `synth_voices`. -/
structure State where
  midi_note : List MidiNote
  voices : List SynthVoice
deriving DecidableEq, Repr

/-- Body of the background-pass `for (i = 0; i < 128; i++)` loop
(lines 284–314) for one note index `i`: when `velocity` differs from
`velocity_prev`, synchronize `velocity_prev := velocity` and dispatch the
note event to the voice bank; otherwise do nothing. -/
def background_note_body (s : State) (i : Nat) : State :=
  let nt := s.midi_note.getD i ⟨0, 0⟩
  if nt.velocity ≠ nt.velocity_prev then
    { midi_note := s.midi_note.set i ⟨nt.velocity, nt.velocity⟩,
      voices := process_note_event s.voices i nt.velocity }
  else s

/-- `processaudio_background_loop` of
`Synth_core1/src/callback_audio_processing.cpp` (lines 281–315): the
background pass scans all 128 note slots in ascending order. -/
def processaudio_background_loop (s : State) : State :=
  (List.range 128).foldl background_note_body s

/-- An external (MIDI-decoder) write of velocity `v` into note slot `i` of
the bridge; `velocity_prev` is owned by the background pass and untouched. -/
def set_velocity (s : State) (i v : Nat) : State :=
  { s with midi_note := Part000.set_note_velocity s.midi_note i v }

/-- One step of the control dynamics: a velocity write followed by one
background pass. -/
def midi_step (s : State) (ev : Nat × Nat) : State :=
  processaudio_background_loop (set_velocity s ev.1 ev.2)

/-- Running a sequence of velocity-change steps. -/
def midi_run (s : State) (evs : List (Nat × Nat)) : State :=
  evs.foldl midi_step s

/-- The initial all-voices-silent state: all 128 note slots zero, 16 voices
with `playing = false` (zero-initialized statics). -/
def init_state : State :=
  ⟨List.replicate 128 ⟨0, 0⟩, List.replicate 16 ⟨false, 0, 0, 0⟩⟩

/-- Number of voices that are playing with assigned note `n`. -/
def countPlaying (n : Nat) (voices : List SynthVoice) : Nat :=
  voices.countP (fun v => v.playing && v.note == n)

end Core1

namespace Core2

/-- The CC slots of the control-rate bridge read by the `Synth_core2`
background pass: `midi_cc_values[]` and `midi_cc_values_prev[]`. -/
structure ControlState where
  midi_cc_values : List Nat
  midi_cc_values_prev : List Nat
deriving DecidableEq, Repr

/-- A call made by the background pass into a DSP element's
modify-entry-point, with the argument passed (the element implementations
live outside `src/`): `delay_modify_feedback`, `delay_modify_length`,
`filter_modify_freq`. -/
inductive ModCall where
  | delayFeedback (x : ℚ)
  | delayLength (n : Nat)
  | filterFreq (x : ℚ)
deriving DecidableEq, Repr

/-- Argument of the CC4 `delay_modify_feedback` call (line 208):
`0.9 * (val / 128.f)`. -/
def cc4_feedback_arg (v : Nat) : ℚ := (9 / 10) * ((v : ℚ) / 128)

/-- Argument of the CC5 `delay_modify_length` call (line 214):
`(uint32_t)((float)AUDIO_SAMPLE_RATE * (val / 128.f))` — the float-to-int
cast truncates the non-negative product, i.e. takes the floor. -/
def cc5_length_arg (sampleRate v : Nat) : Nat :=
  (⌊(sampleRate : ℚ) * ((v : ℚ) / 128)⌋).toNat

/-- Argument of the CC6 `filter_modify_freq` call (line 220):
`(3000.f * (val / 128.f)) + 100.f`. -/
def cc6_freq_arg (v : Nat) : ℚ := 3000 * ((v : ℚ) / 128) + 100

/-- Capacity of `delay_buffer` (line 122): `AUDIO_SAMPLE_RATE * 2` floats. -/
def delay_buffer_capacity (sampleRate : Nat) : Nat := sampleRate * 2

/-- One `if (midi_cc_values_prev[slot] != midi_cc_values[slot])` block of
`processaudio_background_loop` (lines 204–221): on change, synchronize the
previous value and emit the modify-call built from the current value. -/
def cc_slot_body (slot : Nat) (mk : Nat → ModCall) (st : ControlState × List ModCall) :
    ControlState × List ModCall :=
  if st.1.midi_cc_values_prev.getD slot 0 ≠ st.1.midi_cc_values.getD slot 0 then
    ({ st.1 with midi_cc_values_prev :=
         st.1.midi_cc_values_prev.set slot (st.1.midi_cc_values.getD slot 0) },
     st.2 ++ [mk (st.1.midi_cc_values.getD slot 0)])
  else st

/-- `processaudio_background_loop` of
`Synth_core2/src/callback_audio_processing.cpp` (lines 203–228): CC slot 4
drives the delay feedback, slot 5 the delay length, slot 6 the filter
frequency, checked in that order.  Returns the updated control state and
the list of DSP modify-calls made, in call order. -/
def processaudio_background_loop (sampleRate : Nat) (st : ControlState) :
    ControlState × List ModCall :=
  cc_slot_body 6 (fun v => ModCall.filterFreq (cc6_freq_arg v))
    (cc_slot_body 5 (fun v => ModCall.delayLength (cc5_length_arg sampleRate v))
      (cc_slot_body 4 (fun v => ModCall.delayFeedback (cc4_feedback_arg v))
        (st, [])))

end Core2

namespace Core1

/-- Modelled from the spec: `clear_buffer` is an audio utility not under
`src/` — it zeroes a block (spec §4.4 "clear accumulator"). -/
def clear_buffer (n : Nat) : List ℚ := List.replicate n 0

/-- Modelled from the spec: `mix_2x1` is an audio utility not under `src/` —
it adds two blocks sample-wise (spec §4.4 "mix (sample-wise add)"). -/
def mix_2x1 (a b : List ℚ) : List ℚ := List.zipWith (fun x y => x + y) a b

/-- Modelled from the spec: `gain_buffer` is an audio utility not under
`src/` — per its call signature `gain_buffer(buffer, gain, size)` it scales
the single buffer it is given in place (spec §4.4 "apply a fixed output
gain scale"). -/
def gain_buffer (buf : List ℚ) (g : ℚ) : List ℚ := buf.map (fun x => g * x)

/-- `processaudio_callback` of `Synth_core1/src/callback_audio_processing.cpp`
(lines 230–247).  Modelled from the spec where outside `src/`: `synth_read`
(in `simple_synth.cpp`) fills a block from voice `i`; the model abstracts
that block as `voiceBlock i`.  The embedded control flow is exactly the
source's: clear `temp_audio_accum`, mix every voice's block into it in
ascending index order, then call `gain_buffer` on each output channel —
the accumulator is never copied into the output buffers, so the returned
pair is the prior output-channel contents scaled by 0.25. -/
def processaudio_callback (voiceBlock : Nat → List ℚ)
    (left_out right_out : List ℚ) (blockSize : Nat) : List ℚ × List ℚ :=
  let temp_audio_accum :=
    (List.range 16).foldl (fun acc i => mix_2x1 (voiceBlock i) acc)
      (clear_buffer blockSize)
  let _ := temp_audio_accum
  (gain_buffer left_out (1 / 4), gain_buffer right_out (1 / 4))

/-- Written from the spec's words (claim C1 / spec §4.4), for comparison
with `processaudio_callback`: 0.25 times the sample-wise sum of the 16
voices' generated blocks, mixed in ascending voice order. -/
def spec_synth_chain_output (voiceBlock : Nat → List ℚ) (blockSize : Nat) : List ℚ :=
  gain_buffer
    ((List.range 16).foldl (fun acc i => mix_2x1 (voiceBlock i) acc)
      (clear_buffer blockSize))
    (1 / 4)

end Core1


/-- `List.getD` after `List.set` at a different index is unchanged. -/
theorem getD_set_ne {α : Type} {l : List α} {i j : Nat} (h : i ≠ j) (a d : α) :
    (l.set i a).getD j d = l.getD j d := by
  rw [List.getD_eq_getD_get?, List.get?_set_ne _ _ h, ← List.getD_eq_getD_get?]

/-- `List.getD` after `List.set` at the same in-bounds index is the new value. -/
theorem getD_set_self {α : Type} {l : List α} {i : Nat} (h : i < l.length) (a d : α) :
    (l.set i a).getD i d = a := by
  rw [List.getD_eq_getD_get?, List.get?_set_eq_of_lt a h, Option.getD_some]

/-- `List.getD` on a replicated list is the replicated value. -/
theorem getD_replicate {α : Type} (d : α) (r j : Nat) :
    (List.replicate r d).getD j d = d := by
  induction r generalizing j with
  | zero => exact List.getD_nil
  | succ r ih =>
    cases j with
    | zero => exact List.getD_cons_zero
    | succ j => rw [List.replicate_succ, List.getD_cons_succ]; exact ih j

namespace Core1

/-- The current velocity the background pass reads for note slot `i`. -/
def velAt (s : State) (i : Nat) : Nat := (s.midi_note.getD i ⟨0, 0⟩).velocity

/-- The previous velocity stored for note slot `i`. -/
def velPrevAt (s : State) (i : Nat) : Nat := (s.midi_note.getD i ⟨0, 0⟩).velocity_prev

/-- Note slot `i` is synchronized: the background pass sees no change there. -/
def EntrySynced (s : State) (i : Nat) : Prop := velAt s i = velPrevAt s i

instance (s : State) (i : Nat) : Decidable (EntrySynced s i) := by
  unfold EntrySynced; infer_instance

/-- On a synchronized slot the loop body does nothing. -/
theorem background_note_body_of_synced {s : State} {i : Nat} (h : EntrySynced s i) :
    background_note_body s i = s := by
  unfold EntrySynced velAt velPrevAt at h
  unfold background_note_body
  simp only [ne_eq, h, not_true_eq_false, if_false]

/-- On an unsynchronized slot the loop body synchronizes it and dispatches
the note event. -/
theorem background_note_body_of_ne {s : State} {i : Nat} (h : ¬ EntrySynced s i) :
    background_note_body s i =
      { midi_note := s.midi_note.set i ⟨velAt s i, velAt s i⟩,
        voices := process_note_event s.voices i (velAt s i) } := by
  unfold EntrySynced velAt velPrevAt at h
  unfold background_note_body
  simp only [ne_eq, h, not_false_eq_true, if_true]
  rfl

/-- An unsynchronized slot is a real (in-bounds) slot, since `getD` returns
the synchronized default `⟨0, 0⟩` out of bounds. -/
theorem lt_length_of_not_entrySynced {s : State} {i : Nat} (h : ¬ EntrySynced s i) :
    i < s.midi_note.length := by
  by_contra hge
  apply h
  unfold EntrySynced velAt velPrevAt
  rw [List.getD_eq_default _ _ (Nat.le_of_not_lt hge)]

/-- The loop body at slot `i` does not disturb another slot `j`. -/
theorem entrySynced_body_ne {s : State} {i j : Nat} (hne : j ≠ i)
    (h : EntrySynced s j) : EntrySynced (background_note_body s i) j := by
  by_cases hs : EntrySynced s i
  · rw [background_note_body_of_synced hs]; exact h
  · rw [background_note_body_of_ne hs]
    unfold EntrySynced velAt velPrevAt at h ⊢
    simpa only [getD_set_ne (Ne.symm hne)] using h

/-- After the loop body runs on slot `i`, that slot is synchronized. -/
theorem entrySynced_body_self {s : State} {i : Nat} :
    EntrySynced (background_note_body s i) i := by
  by_cases hs : EntrySynced s i
  · rw [background_note_body_of_synced hs]; exact hs
  · rw [background_note_body_of_ne hs]
    unfold EntrySynced velAt velPrevAt
    rw [getD_set_self (lt_length_of_not_entrySynced hs)]

/-- Scanning any set of synchronized slots is a no-op. -/
theorem foldl_body_of_synced (l : List Nat) {s : State}
    (h : ∀ i ∈ l, EntrySynced s i) :
    l.foldl background_note_body s = s := by
  induction l with
  | nil => rfl
  | cons x xs ih =>
    rw [List.foldl_cons, background_note_body_of_synced (h x (List.mem_cons_self _ _))]
    exact ih fun i hi => h i (List.mem_cons_of_mem _ hi)

/-- Scanning a slot list over a state synchronized everywhere except
possibly at `i` performs exactly the body at `i` (when `i` is scanned). -/
theorem foldl_body_synced_except (l : List Nat) (i : Nat) {s : State}
    (h : ∀ j, j ≠ i → EntrySynced s j) :
    l.foldl background_note_body s =
      if i ∈ l then background_note_body s i else s := by
  induction l with
  | nil => simp
  | cons x xs ih =>
    rw [List.foldl_cons]
    by_cases hx : x = i
    · subst hx
      rw [if_pos (List.mem_cons_self _ _)]
      refine foldl_body_of_synced xs fun j _ => ?_
      by_cases hj : j = x
      · subst hj; exact entrySynced_body_self
      · exact entrySynced_body_ne hj (h j hj)
    · rw [background_note_body_of_synced (h x hx), ih]
      have hix : ¬ i = x := fun h' => hx h'.symm
      simp [List.mem_cons, hix]

/-- A fully synchronized state makes the whole background pass a no-op. -/
theorem pass_of_synced {s : Core1.State} (h : ∀ j, EntrySynced s j) :
    processaudio_background_loop s = s :=
  foldl_body_of_synced _ fun i _ => h i

/-- On a state synchronized everywhere except note slot `i < 128`, the
background pass is exactly the loop body at `i`. -/
theorem pass_of_synced_except {s : Core1.State} {i : Nat} (hi : i < 128)
    (h : ∀ j, j ≠ i → EntrySynced s j) :
    processaudio_background_loop s = background_note_body s i := by
  unfold processaudio_background_loop
  rw [foldl_body_synced_except _ i h, if_pos (List.mem_range.mpr hi)]

end Core1

namespace Core1

/-- A velocity write to slot `i` does not disturb synchronization of another
slot `j`. -/
theorem entrySynced_set_velocity_ne {s : State} {i v j : Nat} (hne : j ≠ i)
    (h : EntrySynced s j) : EntrySynced (set_velocity s i v) j := by
  unfold EntrySynced velAt velPrevAt at h ⊢
  unfold set_velocity Part000.set_note_velocity
  simpa only [getD_set_ne (Ne.symm hne)] using h

/-- On a fully synchronized state, a velocity write followed by a background
pass is exactly the loop body at the written slot. -/
theorem midi_step_eq {s : State} (h : ∀ j, EntrySynced s j) {i v : Nat}
    (hi : i < 128) :
    midi_step s (i, v) = background_note_body (set_velocity s i v) i :=
  pass_of_synced_except hi fun j hj => entrySynced_set_velocity_ne hj (h j)

/-- A `midi_step` from a fully synchronized state ends fully synchronized. -/
theorem midi_step_synced {s : State} (h : ∀ j, EntrySynced s j) {i v : Nat}
    (hi : i < 128) : ∀ j, EntrySynced (midi_step s (i, v)) j := by
  rw [midi_step_eq h hi]
  intro j
  by_cases hj : j = i
  · subst hj; exact entrySynced_body_self
  · exact entrySynced_body_ne hj (entrySynced_set_velocity_ne hj (h j))

/-- The initial state is fully synchronized. -/
theorem entrySynced_init : ∀ j, EntrySynced init_state j := by
  intro j
  unfold EntrySynced velAt velPrevAt init_state
  rw [getD_replicate]

/-- The Bool condition of the voice loops agrees with the `countPlaying`
predicate. -/
theorem playing_pred_iff (v : SynthVoice) (n : Nat) :
    (v.playing && v.note == n) = true ↔ v.playing = true ∧ v.note = n := by
  simp [Bool.and_eq_true, beq_iff_eq]

/-- Stopping the first matching voice removes exactly one voice (when any)
from the playing count of that note. -/
theorem countPlaying_stop_first_matching_self (vs : List SynthVoice) (n : Nat) :
    countPlaying n (stop_first_matching vs n) = countPlaying n vs - 1 := by
  induction vs with
  | nil => simp [countPlaying, stop_first_matching]
  | cons v rest ih =>
    by_cases hv : v.playing = true ∧ v.note = n
    · rw [stop_first_matching, if_pos hv]
      simp [countPlaying, List.countP_cons, synth_stop_note,
        (playing_pred_iff v n).mpr hv]
    · rw [stop_first_matching, if_neg hv]
      have hp : (v.playing && v.note == n) = false := by
        rw [← Bool.not_eq_true, playing_pred_iff]; exact hv
      simp only [countPlaying, List.countP_cons, hp, if_false] at ih ⊢
      simpa using ih

/-- Stopping the first voice matching note `n` leaves the playing count of
every other note unchanged. -/
theorem countPlaying_stop_first_matching_ne (vs : List SynthVoice) {n m : Nat}
    (h : m ≠ n) : countPlaying m (stop_first_matching vs n) = countPlaying m vs := by
  induction vs with
  | nil => rfl
  | cons v rest ih =>
    by_cases hv : v.playing = true ∧ v.note = n
    · rw [stop_first_matching, if_pos hv]
      have h1 : ((synth_stop_note v).playing && (synth_stop_note v).note == m) = false := by
        simp [synth_stop_note]
      have h2 : (v.playing && v.note == m) = false := by
        rw [← Bool.not_eq_true, playing_pred_iff]
        rintro ⟨_, hm⟩
        exact h (hm ▸ hv.2.symm ▸ rfl)
      simp [countPlaying, List.countP_cons, h1, h2]
    · rw [stop_first_matching, if_neg hv]
      simp only [countPlaying, List.countP_cons] at ih ⊢
      rw [ih]

/-- Starting the first free voice adds at most one to the playing count of
the started note. -/
theorem countPlaying_play_first_free_self (vs : List SynthVoice) (n : Nat) (a : ℚ) :
    countPlaying n (play_first_free vs n a) ≤ countPlaying n vs + 1 := by
  induction vs with
  | nil => simp [countPlaying, play_first_free]
  | cons v rest ih =>
    by_cases hv : v.playing = false
    · rw [play_first_free, if_pos hv]
      have h1 : ((synth_play_note v n a).playing && (synth_play_note v n a).note == n) = true := by
        simp [synth_play_note]
      have h2 : (v.playing && v.note == n) = false := by simp [hv]
      simp [countPlaying, List.countP_cons, h1, h2]
    · rw [play_first_free, if_neg hv]
      simp only [countPlaying, List.countP_cons] at ih ⊢
      split <;> omega

/-- Starting the first free voice with note `n` leaves the playing count of
every other note unchanged. -/
theorem countPlaying_play_first_free_ne (vs : List SynthVoice) {n m : Nat}
    (h : m ≠ n) (a : ℚ) :
    countPlaying m (play_first_free vs n a) = countPlaying m vs := by
  induction vs with
  | nil => rfl
  | cons v rest ih =>
    by_cases hv : v.playing = false
    · rw [play_first_free, if_pos hv]
      have h1 : ((synth_play_note v n a).playing && (synth_play_note v n a).note == m) = false := by
        simp [synth_play_note, beq_iff_eq]
        exact fun hm => h hm.symm
      have h2 : (v.playing && v.note == m) = false := by simp [hv]
      simp [countPlaying, List.countP_cons, h1, h2]
    · rw [play_first_free, if_neg hv]
      simp only [countPlaying, List.countP_cons] at ih ⊢
      rw [ih]

end Core1


namespace Core1

theorem voices_set_velocity (s : State) (i v : Nat) :
    (set_velocity s i v).voices = s.voices := rfl

theorem length_set_velocity (s : State) (i v : Nat) :
    (set_velocity s i v).midi_note.length = s.midi_note.length := by
  simp [set_velocity, Part000.set_note_velocity]

theorem velAt_set_velocity_self {s : State} {i : Nat} (h : i < s.midi_note.length)
    (v : Nat) : velAt (set_velocity s i v) i = v := by
  unfold velAt set_velocity Part000.set_note_velocity
  rw [getD_set_self h]

theorem velPrevAt_set_velocity_self {s : State} {i : Nat} (h : i < s.midi_note.length)
    (v : Nat) : velPrevAt (set_velocity s i v) i = velPrevAt s i := by
  unfold velPrevAt set_velocity Part000.set_note_velocity
  rw [getD_set_self h]

theorem velAt_set_velocity_ne {s : State} {i j : Nat} (h : j ≠ i) (v : Nat) :
    velAt (set_velocity s i v) j = velAt s j := by
  unfold velAt set_velocity Part000.set_note_velocity
  rw [getD_set_ne (Ne.symm h)]

theorem length_background_note_body (s : State) (i : Nat) :
    (background_note_body s i).midi_note.length = s.midi_note.length := by
  by_cases h : EntrySynced s i
  · rw [background_note_body_of_synced h]
  · rw [background_note_body_of_ne h]; simp

theorem voices_background_note_body_of_ne {s : State} {i : Nat}
    (h : ¬ EntrySynced s i) :
    (background_note_body s i).voices = process_note_event s.voices i (velAt s i) := by
  rw [background_note_body_of_ne h]

theorem velAt_background_note_body_self {s : State} {i : Nat}
    (h : ¬ EntrySynced s i) :
    velAt (background_note_body s i) i = velAt s i := by
  rw [background_note_body_of_ne h]
  unfold velAt
  rw [getD_set_self (lt_length_of_not_entrySynced h)]

theorem velAt_background_note_body_ne {s : State} {i m : Nat} (hm : m ≠ i) :
    velAt (background_note_body s i) m = velAt s m := by
  by_cases h : EntrySynced s i
  · rw [background_note_body_of_synced h]
  · rw [background_note_body_of_ne h]
    unfold velAt
    rw [getD_set_ne (Ne.symm hm)]

/-- Discipline on an event sequence under which the spec's uniqueness
invariant is provable: every event targets a real note slot, and a note-on
(nonzero velocity) arrives only while the note's current velocity is zero —
i.e. note-on and note-off strictly alternate per note. -/
def goodEvents : State → List (Nat × Nat) → Bool
  | _, [] => true
  | s, (i, v) :: rest =>
    decide (i < 128) && (v == 0 || velAt s i == 0) &&
      goodEvents (midi_step s (i, v)) rest

/-- Inductive invariant for the amended claim C3: the bridge is fully
synchronized, the note array has its real length, every note is played by
at most one voice, and a note whose current velocity is zero is played by
no voice. -/
def InvC3 (s : State) : Prop :=
  (∀ j, EntrySynced s j) ∧ s.midi_note.length = 128 ∧
    ∀ n, countPlaying n s.voices ≤ 1 ∧ (velAt s n = 0 → countPlaying n s.voices = 0)

theorem invC3_init : InvC3 init_state := by
  refine ⟨entrySynced_init, by simp [init_state], ?_⟩
  intro n
  have h0 : countPlaying n init_state.voices = 0 := by
    unfold countPlaying init_state
    rw [List.countP_eq_zero]
    intro a ha
    rw [List.eq_of_mem_replicate ha]
    simp
  exact ⟨by omega, fun _ => h0⟩

theorem invC3_step {s : State} (hs : InvC3 s) {i v : Nat} (hi : i < 128)
    (hv : v = 0 ∨ velAt s i = 0) : InvC3 (midi_step s (i, v)) := by
  obtain ⟨hsync, hlen, hcount⟩ := hs
  have hil : i < s.midi_note.length := by omega
  rw [midi_step_eq hsync hi]
  by_cases hg : EntrySynced (set_velocity s i v) i
  · rw [background_note_body_of_synced hg]
    have hvv : v = velAt s i := by
      have h1 := velAt_set_velocity_self hil v
      have h2 := velPrevAt_set_velocity_self hil v
      unfold EntrySynced at hg
      rw [h1, h2, ← hsync i] at hg
      exact hg
    refine ⟨?_, ?_, ?_⟩
    · intro j
      by_cases hj : j = i
      · subst hj; exact hg
      · exact entrySynced_set_velocity_ne hj (hsync j)
    · rw [length_set_velocity]; exact hlen
    · intro n
      have hveln : velAt (set_velocity s i v) n = velAt s n := by
        by_cases hn : n = i
        · subst hn; rw [velAt_set_velocity_self hil, hvv]
        · exact velAt_set_velocity_ne hn v
      rw [voices_set_velocity, hveln]
      exact hcount n
  · have hself : velAt (set_velocity s i v) i = v := velAt_set_velocity_self hil v
    refine ⟨?_, ?_, ?_⟩
    · intro j
      by_cases hj : j = i
      · subst hj; exact entrySynced_body_self
      · exact entrySynced_body_ne hj (entrySynced_set_velocity_ne hj (hsync j))
    · rw [length_background_note_body, length_set_velocity]; exact hlen
    · intro n
      have hvoices : (background_note_body (set_velocity s i v) i).voices
          = process_note_event s.voices i v := by
        rw [voices_background_note_body_of_ne hg, voices_set_velocity, hself]
      have hveln : velAt (background_note_body (set_velocity s i v) i) n
          = if n = i then v else velAt s n := by
        by_cases hn : n = i
        · subst hn; rw [if_pos rfl, velAt_background_note_body_self hg, hself]
        · rw [if_neg hn, velAt_background_note_body_ne hn, velAt_set_velocity_ne hn]
      rw [hvoices, hveln]
      by_cases hn : n = i
      · subst hn
        rw [if_pos rfl]
        rcases Nat.eq_zero_or_pos v with hv0 | hvpos
        · subst hv0
          unfold process_note_event
          rw [if_pos rfl, countPlaying_stop_first_matching_self]
          have h1 := (hcount n).1
          exact ⟨by omega, fun _ => by omega⟩
        · have hz : velAt s n = 0 := by
            rcases hv with h | h
            · omega
            · exact h
          have hc0 : countPlaying n s.voices = 0 := (hcount n).2 hz
          unfold process_note_event
          rw [if_neg (by omega)]
          have hle := countPlaying_play_first_free_self s.voices n ((v : ℚ) * (1 / 128))
          exact ⟨by omega, fun hvz => by omega⟩
      · rw [if_neg hn]
        unfold process_note_event
        split
        · rw [countPlaying_stop_first_matching_ne _ hn]
          exact hcount n
        · rw [countPlaying_play_first_free_ne _ hn]
          exact hcount n

theorem invC3_run (evs : List (Nat × Nat)) :
    ∀ s : State, InvC3 s → goodEvents s evs = true → InvC3 (midi_run s evs) := by
  induction evs with
  | nil => intro s h _; exact h
  | cons e rest ih =>
    intro s h hg
    obtain ⟨i, v⟩ := e
    unfold goodEvents at hg
    simp only [Bool.and_eq_true, decide_eq_true_eq, Bool.or_eq_true, beq_iff_eq] at hg
    obtain ⟨⟨hi, hv⟩, hrest⟩ := hg
    unfold midi_run
    rw [List.foldl_cons]
    exact ih _ (invC3_step h hi hv) hrest


end Core1

namespace Core1

/-- If every voice is playing, the note-on allocation loop changes nothing
(the event is dropped, no stealing). -/
theorem play_first_free_of_all_playing (vs : List SynthVoice) (n : Nat) (a : ℚ)
    (h : ∀ v ∈ vs, v.playing = true) : play_first_free vs n a = vs := by
  induction vs with
  | nil => rfl
  | cons v rest ih =>
    rw [play_first_free, if_neg (by simp [h v (List.mem_cons_self _ _)])]
    rw [ih fun u hu => h u (List.mem_cons_of_mem _ hu)]

/-- The note-on allocation loop starts exactly the first non-playing voice,
in ascending index order. -/
theorem play_first_free_append (pre : List SynthVoice) (v₀ : SynthVoice)
    (post : List SynthVoice) (n : Nat) (a : ℚ)
    (hpre : ∀ u ∈ pre, u.playing = true) (hv : v₀.playing = false) :
    play_first_free (pre ++ v₀ :: post) n a = pre ++ synth_play_note v₀ n a :: post := by
  induction pre with
  | nil => simp [play_first_free, hv]
  | cons u us ih =>
    rw [List.cons_append, play_first_free,
      if_neg (by simp [hpre u (List.mem_cons_self _ _)]), List.cons_append]
    rw [ih fun w hw => hpre w (List.mem_cons_of_mem _ hw)]

end Core1

/-- C4: on a note-on (nonzero velocity), the background pass scans voices in
ascending index order and starts the first voice with `playing == false`,
storing the note and the velocity scaled by 1/128 as amplitude; if every
voice is playing, the event is dropped and no voice's state changes. -/
theorem c4_note_on_allocation (voices : List SynthVoice) (i vel : Nat)
    (hvel : vel ≠ 0) :
    Core1.process_note_event voices i vel
        = Core1.play_first_free voices i ((vel : ℚ) * (1 / 128)) ∧
    ((∀ v ∈ voices, v.playing = true) →
        Core1.process_note_event voices i vel = voices) ∧
    (∀ pre v₀ post, voices = pre ++ v₀ :: post → (∀ u ∈ pre, u.playing = true) →
        v₀.playing = false →
        Core1.process_note_event voices i vel
          = pre ++ synth_play_note v₀ i ((vel : ℚ) * (1 / 128)) :: post) := by
  have he : Core1.process_note_event voices i vel
      = Core1.play_first_free voices i ((vel : ℚ) * (1 / 128)) := by
    unfold Core1.process_note_event
    rw [if_neg hvel]
  refine ⟨he, fun hall => ?_, fun pre v₀ post hsplit hpre hfree => ?_⟩
  · rw [he, Core1.play_first_free_of_all_playing _ _ _ hall]
  · rw [he, hsplit, Core1.play_first_free_append pre v₀ post _ _ hpre hfree]

/-- Witness for C4: with voice 0 busy (note 3) and voice 1 free, a note-on
for note 60, velocity 64 starts voice 1 with amplitude 64/128. -/
theorem c4_witness :
    Core1.process_note_event [⟨true, 3, 1, 0⟩, ⟨false, 0, 0, 0⟩] 60 64
      = [⟨true, 3, 1, 0⟩, synth_play_note ⟨false, 0, 0, 0⟩ 60 ((64 : ℚ) * (1 / 128))] :=
  (c4_note_on_allocation [⟨true, 3, 1, 0⟩, ⟨false, 0, 0, 0⟩] 60 64 (by decide)).2.2
    [⟨true, 3, 1, 0⟩] ⟨false, 0, 0, 0⟩ [] rfl (by decide) rfl

/-- C2: evaluation of the code at a failing input.  From the all-silent
initial state, the reachable event sequence velocity 100 → 50 → 0 on note 60
leaves voice 1 still playing note 60 after the note-off: the note-off loop
(`do … while (!found && indx < 16)`) stops only the first matching voice
(voice 0), contradicting the claim that every matching voice is stopped. -/
theorem c2_note_off_stops_only_first_match :
    ((Core1.midi_run Core1.init_state [(60, 100), (60, 50), (60, 0)]).voices.getD 1
        ⟨false, 0, 0, 0⟩).playing = true ∧
    ((Core1.midi_run Core1.init_state [(60, 100), (60, 50), (60, 0)]).voices.getD 1
        ⟨false, 0, 0, 0⟩).note = 60 ∧
    ((Core1.midi_run Core1.init_state [(60, 100), (60, 50), (60, 0)]).voices.getD 0
        ⟨false, 0, 0, 0⟩).playing = false := by
  have h0 := Core1.entrySynced_init
  have h1 : ∀ j, Core1.EntrySynced (Core1.midi_step Core1.init_state (60, 100)) j :=
    Core1.midi_step_synced h0 (by omega)
  have h2 : ∀ j, Core1.EntrySynced
      (Core1.midi_step (Core1.midi_step Core1.init_state (60, 100)) (60, 50)) j :=
    Core1.midi_step_synced h1 (by omega)
  have e : Core1.midi_run Core1.init_state [(60, 100), (60, 50), (60, 0)]
      = Core1.midi_step (Core1.midi_step (Core1.midi_step Core1.init_state (60, 100))
          (60, 50)) (60, 0) := by
    unfold Core1.midi_run
    rw [List.foldl_cons, List.foldl_cons, List.foldl_cons, List.foldl_nil]
  rw [e, Core1.midi_step_eq h2 (by omega), Core1.midi_step_eq h1 (by omega),
    Core1.midi_step_eq h0 (by omega)]
  refine ⟨by decide, by decide, by decide⟩

/-- C3 (counterexample): the claimed invariant — at most one playing voice
per note in every reachable state — is false: from the all-silent initial
state, changing note 60's velocity to 100 and then to 50 (two note-ons with
no intervening note-off) leaves two voices playing note 60. -/
theorem c3_counterexample :
    Core1.countPlaying 60 (Core1.midi_run Core1.init_state [(60, 100), (60, 50)]).voices
      = 2 := by
  have h0 := Core1.entrySynced_init
  have h1 : ∀ j, Core1.EntrySynced (Core1.midi_step Core1.init_state (60, 100)) j :=
    Core1.midi_step_synced h0 (by omega)
  have e : Core1.midi_run Core1.init_state [(60, 100), (60, 50)]
      = Core1.midi_step (Core1.midi_step Core1.init_state (60, 100)) (60, 50) := by
    unfold Core1.midi_run
    rw [List.foldl_cons, List.foldl_cons, List.foldl_nil]
  rw [e, Core1.midi_step_eq h1 (by omega), Core1.midi_step_eq h0 (by omega)]
  decide

/-- C3 (amended): in every state reachable from the all-silent initial state
by a sequence of velocity-change steps in which a nonzero velocity is only
ever written to a note slot whose current velocity is zero (strict per-note
note-on/note-off alternation, `goodEvents`), at most one of the 16 voices
has `playing == true` with a given assigned note number. -/
theorem c3_at_most_one_voice_per_note (evs : List (Nat × Nat))
    (h : Core1.goodEvents Core1.init_state evs = true) (n : Nat) :
    Core1.countPlaying n (Core1.midi_run Core1.init_state evs).voices ≤ 1 :=
  ((Core1.invC3_run evs Core1.init_state Core1.invC3_init h).2.2 n).1

/-- Witness for the amended C3: the single note-on sequence `[(60, 100)]`
is disciplined and leaves at most one voice playing note 60. -/
theorem c3_witness :
    Core1.goodEvents Core1.init_state [(60, 100)] = true ∧
    Core1.countPlaying 60 (Core1.midi_run Core1.init_state [(60, 100)]).voices ≤ 1 :=
  ⟨by decide, c3_at_most_one_voice_per_note [(60, 100)] (by decide) 60⟩

/-- C1: evaluation of the code at a failing input.  With every voice
generating the one-sample block `[1]` and both output channels previously
holding `[0]`, the callback leaves both outputs at `[0]`, while the spec's
synth-chain output (0.25 times the sample-wise sum of the 16 voices) is
`[4]`: the accumulated mix is computed but never copied into the output
channels, which are merely scaled in place by 0.25. -/
theorem c1_output_is_not_scaled_voice_mix :
    Core1.processaudio_callback (fun _ => [1]) [0] [0] 1 = ([0], [0]) ∧
    Core1.spec_synth_chain_output (fun _ => [1]) 1 = [4] ∧
    (Core1.processaudio_callback (fun _ => [1]) [0] [0] 1).1
      ≠ Core1.spec_synth_chain_output (fun _ => [1]) 1 := by
  have h : List.range 16 = [0, 1, 2, 3, 4, 5, 6, 7, 8, 9, 10, 11, 12, 13, 14, 15] := by
    decide
  have h1 : Core1.processaudio_callback (fun _ => [1]) [0] [0] 1 = ([0], [0]) := by
    simp [Core1.processaudio_callback, Core1.gain_buffer]
  have h2 : Core1.spec_synth_chain_output (fun _ => [1]) 1 = [4] := by
    simp only [Core1.spec_synth_chain_output, Core1.gain_buffer, Core1.mix_2x1,
      Core1.clear_buffer, h, List.foldl_cons, List.foldl_nil, List.replicate,
      List.zipWith, List.map]
    norm_num
  refine ⟨h1, h2, ?_⟩
  rw [h1, h2]
  intro hc
  exact absurd (List.head_eq_of_cons_eq hc) (by norm_num)

/-- C5: from the decoder's reset state, the note-on message
`[0x90, 0x3C, 0x64]` makes the bridge report velocity 100 for note 60, and
the further note-off message `[0x80, 0x3C, 0x00]` makes it report velocity
0 — in both decoder variants (`part_000` persistent-state decoder writing
`midi_note[60].velocity`, `Synth_core0` local-state decoder writing
`midi_note_velocities[60]`). -/
theorem c5_note_on_then_note_off_roundtrip :
    ((Part000.midi_rx_bytes (Part000.reset_state, Part000.init_bridge)
        [0x90, 0x3C, 0x64]).2.midi_note.getD 60 ⟨0, 0⟩).velocity = 100 ∧
    ((Part000.midi_rx_bytes (Part000.reset_state, Part000.init_bridge)
        [0x90, 0x3C, 0x64, 0x80, 0x3C, 0x00]).2.midi_note.getD 60 ⟨0, 0⟩).velocity = 0 ∧
    (Core0.midi_rx_callback_arm Core0.init_bridge
        [0x90, 0x3C, 0x64]).midi_note_velocities.getD 60 0 = 100 ∧
    (Core0.midi_rx_callback_arm Core0.init_bridge
        [0x90, 0x3C, 0x64, 0x80, 0x3C, 0x00]).midi_note_velocities.getD 60 0 = 0 :=
  ⟨by decide, by decide, by decide, by decide⟩

namespace Part000

/-- Evaluation of the `part_000` decoder on a note-off data byte: with the
current command `0x80` at data byte position 0, receiving note byte `n`
stores 0 into `midi_note[n].velocity` and advances the byte counter. -/
theorem midi_rx_byte_note_off {d : DecoderState} {b : Bridge} {n : Nat}
    (hst : d.midi_status = 0x80) (hbn : d.midi_byte_num = 0) (hn : n < 128) :
    midi_rx_byte (d, b) n =
      ({ d with midi_byte_num := 1 },
       { b with midi_note := set_note_velocity b.midi_note n 0 }) := by
  unfold midi_rx_byte
  have hx : n % 256 = n := Nat.mod_eq_of_lt (by omega)
  simp [hx, hst, hbn, hn]

end Part000

/-- C6 (counterexample): with note 60's velocity and previous velocity both
100 and the decoder awaiting the note-off data byte, receiving note byte
0x3C (60) leaves the previous-velocity tracking field at 100: the decoder
does not set it to 0, contradicting the claim that both fields are zeroed. -/
theorem c6_counterexample :
    ((Part000.midi_rx_byte (⟨0x80, 0, 0, 0⟩,
        ⟨(List.replicate 128 (⟨0, 0⟩ : MidiNote)).set 60 ⟨100, 100⟩,
          List.replicate 16 0⟩) 0x3C).2.midi_note.getD 60 ⟨0, 0⟩).velocity_prev
      = 100 := by decide

/-- C6 (amended): when the `part_000` decoder's current command is note-off
(0x80) and it receives its first data byte carrying note number `n`, it sets
that note's velocity to 0 and leaves the note's previous-velocity tracking
field — and every other note slot, and the CC array — unchanged. -/
theorem c6_note_off_zeroes_velocity_only (d : Part000.DecoderState)
    (b : Part000.Bridge) (n : Nat)
    (hst : d.midi_status = 0x80) (hbn : d.midi_byte_num = 0) (hn : n < 128) :
    ((Part000.midi_rx_byte (d, b) n).2.midi_note.getD n ⟨0, 0⟩).velocity = 0 ∧
    ((Part000.midi_rx_byte (d, b) n).2.midi_note.getD n ⟨0, 0⟩).velocity_prev
      = (b.midi_note.getD n ⟨0, 0⟩).velocity_prev ∧
    (∀ m, m ≠ n → (Part000.midi_rx_byte (d, b) n).2.midi_note.getD m ⟨0, 0⟩
      = b.midi_note.getD m ⟨0, 0⟩) ∧
    (Part000.midi_rx_byte (d, b) n).2.midi_cc_values = b.midi_cc_values := by
  rw [Part000.midi_rx_byte_note_off hst hbn hn]
  refine ⟨?_, ?_, fun m hm => ?_, rfl⟩
  · unfold Part000.set_note_velocity
    rcases Nat.lt_or_ge n b.midi_note.length with hl | hl
    · rw [getD_set_self hl]
    · rw [List.getD_eq_default _ _ (by simpa using hl)]
  · unfold Part000.set_note_velocity
    rcases Nat.lt_or_ge n b.midi_note.length with hl | hl
    · rw [getD_set_self hl]
    · rw [List.getD_eq_default _ _ (by simpa using hl), List.getD_eq_default _ _ hl]
  · unfold Part000.set_note_velocity
    rw [getD_set_ne (Ne.symm hm)]

/-- Witness for the amended C6: from the all-zero bridge with the decoder
awaiting a note-off data byte, receiving note 60 yields velocity 0 and an
unchanged previous velocity for note 60. -/
theorem c6_witness :
    ((Part000.midi_rx_byte (⟨0x80, 0, 0, 0⟩, Part000.init_bridge) 60).2.midi_note.getD
        60 ⟨0, 0⟩).velocity = 0 ∧
    ((Part000.midi_rx_byte (⟨0x80, 0, 0, 0⟩, Part000.init_bridge) 60).2.midi_note.getD
        60 ⟨0, 0⟩).velocity_prev
      = (Part000.init_bridge.midi_note.getD 60 ⟨0, 0⟩).velocity_prev :=
  ⟨(c6_note_off_zeroes_velocity_only ⟨0x80, 0, 0, 0⟩ Part000.init_bridge 60 rfl rfl
      (by omega)).1,
   (c6_note_off_zeroes_velocity_only ⟨0x80, 0, 0, 0⟩ Part000.init_bridge 60 rfl rfl
      (by omega)).2.1⟩

namespace Core0

/-- With the local `status` variable still 0 (no status byte seen in this
invocation), a data byte matches no command case and leaves the bridge
untouched, only advancing `command_num`. -/
theorem fold_data_bytes_no_status (bytes : List Nat) :
    ∀ (d : Locals) (b : Bridge), d.status = 0 →
      (∀ x ∈ bytes, x % 256 < 128) →
      (bytes.foldl midi_rx_byte (d, b)).2 = b := by
  induction bytes with
  | nil => intro d b _ _; rfl
  | cons x xs ih =>
    intro d b hd h
    have hx : x % 256 < 128 := h x (List.mem_cons_self _ _)
    have hstep : midi_rx_byte (d, b) x
        = ({ d with command_num := d.command_num + 1 }, b) := by
      unfold midi_rx_byte
      simp [hd, Nat.not_le.mpr hx]
    rw [List.foldl_cons, hstep]
    exact ih _ _ hd fun y hy => h y (List.mem_cons_of_mem _ hy)

/-- A note-on status byte followed by only the note-number data byte leaves
the bridge unchanged: the velocity write would only happen on the second
data byte, which never arrives in this invocation. -/
theorem partial_note_on_message (b : Bridge) :
    midi_rx_callback_arm b [0x90, 0x3C] = b := by
  unfold midi_rx_callback_arm midi_rx_byte
  norm_num

end Core0

/-- C9: the `Synth_core0` decoder keeps its state in local variables that
are zero-initialized on each invocation, so no state persists across
invocations: an invocation consisting only of data bytes (high bit clear)
never writes to the bridge, and a note-on message split across two
invocations (`[0x90, 0x3C]` then `[0x64]`) is never applied — the bridge is
exactly as before. -/
theorem c9_core0_locals_do_not_persist (b : Core0.Bridge) (bytes : List Nat)
    (h : ∀ x ∈ bytes, x % 256 < 128) :
    Core0.midi_rx_callback_arm b bytes = b ∧
    Core0.midi_rx_callback_arm (Core0.midi_rx_callback_arm b [0x90, 0x3C]) [0x64]
      = b := by
  constructor
  · exact Core0.fold_data_bytes_no_status bytes ⟨0, 0, 0, 0⟩ b rfl h
  · rw [Core0.partial_note_on_message b]
    exact Core0.fold_data_bytes_no_status [0x64] ⟨0, 0, 0, 0⟩ b rfl (by decide)

/-- Witness for C9 at the all-zero bridge and the data-byte stream
`[0x10, 100]`. -/
theorem c9_witness :
    Core0.midi_rx_callback_arm Core0.init_bridge [0x10, 100] = Core0.init_bridge ∧
    Core0.midi_rx_callback_arm
        (Core0.midi_rx_callback_arm Core0.init_bridge [0x90, 0x3C]) [0x64]
      = Core0.init_bridge :=
  c9_core0_locals_do_not_persist Core0.init_bridge [0x10, 100] (by decide)

namespace Part000

/-- Evaluation of the `part_000` decoder on a CC status byte. -/
theorem midi_rx_byte_cc_status (d : DecoderState) (b : Bridge) {ch : Nat}
    (hch : ch < 16) :
    midi_rx_byte (d, b) (0xB0 + ch) = (⟨0xB0, ch, 0, 0⟩, b) := by
  unfold midi_rx_byte
  have hx : (0xB0 + ch) % 256 = 176 + ch := by omega
  have h1 : (176 + ch) / 16 * 16 = 176 := by omega
  have h2 : (176 + ch) % 16 = ch := by omega
  simp only [hx, h1, h2]
  rw [if_pos (by omega)]

/-- Evaluation of the `part_000` decoder on the controller-number data byte
of a CC message. -/
theorem midi_rx_byte_cc_data0 (b : Bridge) {ch ctrl : Nat}
    (hctrl : ctrl < 128) :
    midi_rx_byte ((⟨0xB0, ch, 0, 0⟩ : DecoderState), b) ctrl
      = (⟨0xB0, ch, ctrl, 1⟩, b) := by
  unfold midi_rx_byte
  have hx : ctrl % 256 = ctrl := Nat.mod_eq_of_lt (by omega)
  simp [hx, hctrl]

/-- Evaluation of the `part_000` decoder on the value data byte of a CC
message: the bridge is written only when the stored controller number is 74,
and then at the index given by the MIDI channel. -/
theorem midi_rx_byte_cc_data1 (b : Bridge) {ch ctrl v : Nat} (hv : v < 128) :
    midi_rx_byte ((⟨0xB0, ch, ctrl, 1⟩ : DecoderState), b) v
      = (⟨0xB0, ch, ctrl, 2⟩,
         if ctrl = 74 then { b with midi_cc_values := b.midi_cc_values.set ch v }
         else b) := by
  unfold midi_rx_byte
  have hx : v % 256 = v := Nat.mod_eq_of_lt (by omega)
  by_cases hc : ctrl = 74
  · simp [hx, hv, hc]
  · simp [hx, hv, hc]

end Part000

/-- C10: in the `part_000` decoder a control-change message
`[0xB0 | ch, ctrl, v]` updates `midi_cc_values` only when the controller
number `ctrl` is 74, and the value is then stored at index `ch` (the MIDI
channel from the status byte's low nibble), not at index `ctrl`; for any
other controller number `midi_cc_values` is left entirely unchanged, and
the note array is untouched in every case. -/
theorem c10_cc_writes_filtered_and_channel_indexed (d : Part000.DecoderState)
    (b : Part000.Bridge) (ch ctrl v : Nat)
    (hch : ch < 16) (hctrl : ctrl < 128) (hv : v < 128) :
    (ctrl = 74 →
      (Part000.midi_rx_bytes (d, b) [0xB0 + ch, ctrl, v]).2.midi_cc_values
        = b.midi_cc_values.set ch v) ∧
    (ctrl ≠ 74 →
      (Part000.midi_rx_bytes (d, b) [0xB0 + ch, ctrl, v]).2.midi_cc_values
        = b.midi_cc_values) ∧
    (Part000.midi_rx_bytes (d, b) [0xB0 + ch, ctrl, v]).2.midi_note
      = b.midi_note := by
  have e : Part000.midi_rx_bytes (d, b) [0xB0 + ch, ctrl, v]
      = Part000.midi_rx_byte (Part000.midi_rx_byte (Part000.midi_rx_byte (d, b)
          (0xB0 + ch)) ctrl) v := by
    unfold Part000.midi_rx_bytes
    rw [List.foldl_cons, List.foldl_cons, List.foldl_cons, List.foldl_nil]
  rw [e, Part000.midi_rx_byte_cc_status d b hch, Part000.midi_rx_byte_cc_data0 b hctrl,
    Part000.midi_rx_byte_cc_data1 b hv]
  by_cases hc : ctrl = 74
  · rw [if_pos hc]
    exact ⟨fun _ => rfl, fun hne => absurd hc hne, rfl⟩
  · rw [if_neg hc]
    exact ⟨fun heq => absurd heq hc, fun _ => rfl, rfl⟩

/-- Witness for C10: a CC-74 message on channel 4 with value 99 writes 99
into `midi_cc_values[4]`. -/
theorem c10_witness :
    (Part000.midi_rx_bytes (Part000.reset_state, Part000.init_bridge)
        [0xB0 + 4, 74, 99]).2.midi_cc_values
      = Part000.init_bridge.midi_cc_values.set 4 99 :=
  (c10_cc_writes_filtered_and_channel_indexed Part000.reset_state Part000.init_bridge
      4 74 99 (by decide) (by decide) (by decide)).1 rfl

namespace Core2

/-- A CC slot whose previous value equals its current value produces no
state change and no DSP call. -/
theorem cc_slot_body_of_synced (slot : Nat) (mk : Nat → ModCall)
    (p : ControlState × List ModCall)
    (h : p.1.midi_cc_values_prev.getD slot 0 = p.1.midi_cc_values.getD slot 0) :
    cc_slot_body slot mk p = p := by
  unfold cc_slot_body
  rw [if_neg (not_ne_iff.mpr h)]

/-- A CC slot block never removes already-emitted calls. -/
theorem cc_slot_body_mem (slot : Nat) (mk : Nat → ModCall)
    (p : ControlState × List ModCall) {c : ModCall} (hc : c ∈ p.2) :
    c ∈ (cc_slot_body slot mk p).2 := by
  unfold cc_slot_body
  split
  · exact List.mem_append_left _ hc
  · exact hc

/-- A changed CC slot emits the modify-call built from its current value. -/
theorem cc_slot_body_emits (slot : Nat) (mk : Nat → ModCall)
    (p : ControlState × List ModCall)
    (h : p.1.midi_cc_values_prev.getD slot 0 ≠ p.1.midi_cc_values.getD slot 0) :
    mk (p.1.midi_cc_values.getD slot 0) ∈ (cc_slot_body slot mk p).2 := by
  unfold cc_slot_body
  rw [if_pos h]
  exact List.mem_append_right _ (by simp)

/-- A CC slot block never writes `midi_cc_values` (only the `prev` array). -/
theorem cc_slot_body_fst_cc (slot : Nat) (mk : Nat → ModCall)
    (p : ControlState × List ModCall) :
    (cc_slot_body slot mk p).1.midi_cc_values = p.1.midi_cc_values := by
  unfold cc_slot_body
  split <;> rfl

/-- A CC slot block leaves the `prev` entries of other slots unchanged. -/
theorem cc_slot_body_fst_prev_ne (slot : Nat) (mk : Nat → ModCall)
    (p : ControlState × List ModCall) {j : Nat} (hj : j ≠ slot) :
    (cc_slot_body slot mk p).1.midi_cc_values_prev.getD j 0
      = p.1.midi_cc_values_prev.getD j 0 := by
  unfold cc_slot_body
  split
  · exact getD_set_ne (Ne.symm hj) _ _
  · rfl

end Core2

/-- C7: for every CC byte value v ≤ 127, a changed CC slot 4 produces a
`delay_modify_feedback` call with argument 0.9·(v/128) ∈ [0, 0.9]; a changed
CC slot 5 produces a `delay_modify_length` call with
⌊sampleRate·(v/128)⌋ ∈ [0, sampleRate] samples, never exceeding the delay
buffer capacity sampleRate·2; and a changed CC slot 6 produces a
`filter_modify_freq` call with 3000·(v/128)+100 ∈ [100, 3100] Hz. -/
theorem c7_cc_scaling_in_range (sampleRate v : Nat) (hv : v ≤ 127) :
    (0 ≤ Core2.cc4_feedback_arg v ∧ Core2.cc4_feedback_arg v ≤ 9 / 10) ∧
    (Core2.cc5_length_arg sampleRate v ≤ sampleRate ∧
      Core2.cc5_length_arg sampleRate v ≤ Core2.delay_buffer_capacity sampleRate) ∧
    (100 ≤ Core2.cc6_freq_arg v ∧ Core2.cc6_freq_arg v ≤ 3100) ∧
    (∀ st : Core2.ControlState, st.midi_cc_values.getD 4 0 = v →
      st.midi_cc_values_prev.getD 4 0 ≠ v →
      Core2.ModCall.delayFeedback (Core2.cc4_feedback_arg v)
        ∈ (Core2.processaudio_background_loop sampleRate st).2) ∧
    (∀ st : Core2.ControlState, st.midi_cc_values.getD 5 0 = v →
      st.midi_cc_values_prev.getD 5 0 ≠ v →
      Core2.ModCall.delayLength (Core2.cc5_length_arg sampleRate v)
        ∈ (Core2.processaudio_background_loop sampleRate st).2) ∧
    (∀ st : Core2.ControlState, st.midi_cc_values.getD 6 0 = v →
      st.midi_cc_values_prev.getD 6 0 ≠ v →
      Core2.ModCall.filterFreq (Core2.cc6_freq_arg v)
        ∈ (Core2.processaudio_background_loop sampleRate st).2) := by
  have hq0 : (0 : ℚ) ≤ (v : ℚ) := Nat.cast_nonneg v
  have hq127 : (v : ℚ) ≤ 127 := by exact_mod_cast hv
  have hdiv1 : (v : ℚ) / 128 ≤ 1 := by
    rw [div_le_one (by norm_num)]
    linarith
  refine ⟨⟨?_, ?_⟩, ⟨?_, ?_⟩, ⟨?_, ?_⟩, ?_, ?_, ?_⟩
  · unfold Core2.cc4_feedback_arg
    positivity
  · unfold Core2.cc4_feedback_arg
    nlinarith
  · unfold Core2.cc5_length_arg
    rw [Int.toNat_le]
    calc ⌊(sampleRate : ℚ) * ((v : ℚ) / 128)⌋
        ≤ ⌊((sampleRate : ℕ) : ℚ)⌋ := by
          apply Int.floor_le_floor
          nlinarith [Nat.cast_nonneg (α := ℚ) sampleRate]
      _ = (sampleRate : ℤ) := Int.floor_natCast sampleRate
  · have h1 : Core2.cc5_length_arg sampleRate v ≤ sampleRate := by
      unfold Core2.cc5_length_arg
      rw [Int.toNat_le]
      calc ⌊(sampleRate : ℚ) * ((v : ℚ) / 128)⌋
          ≤ ⌊((sampleRate : ℕ) : ℚ)⌋ := by
            apply Int.floor_le_floor
            nlinarith [Nat.cast_nonneg (α := ℚ) sampleRate]
        _ = (sampleRate : ℤ) := Int.floor_natCast sampleRate
    unfold Core2.delay_buffer_capacity
    omega
  · unfold Core2.cc6_freq_arg
    nlinarith
  · unfold Core2.cc6_freq_arg
    nlinarith
  · intro st hcc hprev
    unfold Core2.processaudio_background_loop
    apply Core2.cc_slot_body_mem
    apply Core2.cc_slot_body_mem
    have he := Core2.cc_slot_body_emits 4
      (fun w => Core2.ModCall.delayFeedback (Core2.cc4_feedback_arg w)) (st, [])
      (by
        show st.midi_cc_values_prev.getD 4 0 ≠ st.midi_cc_values.getD 4 0
        rw [hcc]
        exact hprev)
    rw [hcc] at he
    exact he
  · intro st hcc hprev
    unfold Core2.processaudio_background_loop
    apply Core2.cc_slot_body_mem
    have he := Core2.cc_slot_body_emits 5
      (fun w => Core2.ModCall.delayLength (Core2.cc5_length_arg sampleRate w))
      (Core2.cc_slot_body 4
        (fun w => Core2.ModCall.delayFeedback (Core2.cc4_feedback_arg w)) (st, []))
      (by
        rw [Core2.cc_slot_body_fst_prev_ne _ _ _ (by omega),
          Core2.cc_slot_body_fst_cc]
        show st.midi_cc_values_prev.getD 5 0 ≠ st.midi_cc_values.getD 5 0
        rw [hcc]
        exact hprev)
    rw [Core2.cc_slot_body_fst_cc, hcc] at he
    exact he
  · intro st hcc hprev
    unfold Core2.processaudio_background_loop
    have he := Core2.cc_slot_body_emits 6
      (fun w => Core2.ModCall.filterFreq (Core2.cc6_freq_arg w))
      (Core2.cc_slot_body 5
        (fun w => Core2.ModCall.delayLength (Core2.cc5_length_arg sampleRate w))
        (Core2.cc_slot_body 4
          (fun w => Core2.ModCall.delayFeedback (Core2.cc4_feedback_arg w)) (st, [])))
      (by
        rw [Core2.cc_slot_body_fst_prev_ne _ _ _ (by omega),
          Core2.cc_slot_body_fst_prev_ne _ _ _ (by omega),
          Core2.cc_slot_body_fst_cc, Core2.cc_slot_body_fst_cc]
        show st.midi_cc_values_prev.getD 6 0 ≠ st.midi_cc_values.getD 6 0
        rw [hcc]
        exact hprev)
    rw [Core2.cc_slot_body_fst_cc, Core2.cc_slot_body_fst_cc, hcc] at he
    exact he

/-- Witness for C7 at sample rate 48000, value 100, on a control state whose
CC slots all read 100 with previous value 0. -/
theorem c7_witness :
    (0 ≤ Core2.cc4_feedback_arg 100 ∧ Core2.cc4_feedback_arg 100 ≤ 9 / 10) ∧
    Core2.cc5_length_arg 48000 100 ≤ 48000 ∧
    (100 ≤ Core2.cc6_freq_arg 100 ∧ Core2.cc6_freq_arg 100 ≤ 3100) ∧
    Core2.ModCall.delayFeedback (Core2.cc4_feedback_arg 100)
      ∈ (Core2.processaudio_background_loop 48000
          ⟨List.replicate 16 100, List.replicate 16 0⟩).2 :=
  ⟨(c7_cc_scaling_in_range 48000 100 (by decide)).1,
   (c7_cc_scaling_in_range 48000 100 (by decide)).2.1.1,
   (c7_cc_scaling_in_range 48000 100 (by decide)).2.2.1,
   (c7_cc_scaling_in_range 48000 100 (by decide)).2.2.2.1
     ⟨List.replicate 16 100, List.replicate 16 0⟩ (by decide) (by decide)⟩

/-- C8: if at the start of a background-pass invocation every monitored
bridge slot's current value equals its previous value, the invocation
changes nothing: the Synth_core1 pass (which monitors all 128 note slots)
returns its state — voices and previous-velocity fields — unchanged, and
the Synth_core2 pass (which monitors CC slots 4, 5, 6) returns its state
unchanged and makes no DSP modify-call at all. -/
theorem c8_background_pass_no_change_no_mutation (s : Core1.State)
    (hs : ∀ j, Core1.EntrySynced s j) (sampleRate : Nat)
    (st : Core2.ControlState)
    (h4 : st.midi_cc_values_prev.getD 4 0 = st.midi_cc_values.getD 4 0)
    (h5 : st.midi_cc_values_prev.getD 5 0 = st.midi_cc_values.getD 5 0)
    (h6 : st.midi_cc_values_prev.getD 6 0 = st.midi_cc_values.getD 6 0) :
    Core1.processaudio_background_loop s = s ∧
    Core2.processaudio_background_loop sampleRate st = (st, []) := by
  refine ⟨Core1.pass_of_synced hs, ?_⟩
  unfold Core2.processaudio_background_loop
  rw [Core2.cc_slot_body_of_synced 4 _ _ h4, Core2.cc_slot_body_of_synced 5 _ _ h5,
    Core2.cc_slot_body_of_synced 6 _ _ h6]

/-- Witness for C8 at the all-silent Synth_core1 state and an all-zero
Synth_core2 control state. -/
theorem c8_witness :
    Core1.processaudio_background_loop Core1.init_state = Core1.init_state ∧
    Core2.processaudio_background_loop 48000
        ⟨List.replicate 16 0, List.replicate 16 0⟩
      = (⟨List.replicate 16 0, List.replicate 16 0⟩, []) :=
  c8_background_pass_no_change_no_mutation Core1.init_state Core1.entrySynced_init
    48000 ⟨List.replicate 16 0, List.replicate 16 0⟩ (by decide) (by decide)
    (by decide)
